import Mathlib

/-!
Verification of the boston-data-server repository (src/index.ts) against its
natural-language specification.

The TypeScript source is shallowly embedded: JS strings become `List Char` /
`String`, records from the CKAN datastore become association lists of JS scalar
values, remote HTTP interaction becomes explicit response values (supplied by an
oracle function per offset), and code that can throw returns `Except String`.
All definitions are executable and structurally recursive, so concrete runs
evaluate by `rfl` / `decide`.
-/

namespace BostonData

/-! ## JS primitives -/

/-- JS word character, as used by the `\b` regex assertion: `[A-Za-z0-9_]`. -/
def isWordChar (c : Char) : Bool :=
  ('A' ≤ c && c ≤ 'Z') || ('a' ≤ c && c ≤ 'z') || ('0' ≤ c && c ≤ '9') || c = '_'

/-- JS line terminators, which `.` (without the `s` flag) does not match. -/
def isLineTerm (c : Char) : Bool :=
  c = '\n' || c = '\r' || c = ' ' || c = ' '

/-- Case-insensitive consumption of the literal pattern `w` from the front of `s`
(the `i` regex flag; all pattern characters here are ASCII). Returns the rest on
success. -/
def consumeCI : List Char → List Char → Option (List Char)
  | [], s => some s
  | _ :: _, [] => none
  | p :: ps, c :: cs => if p.toLower = c.toLower then consumeCI ps cs else none

/-- Whether the word-boundary assertion `\b` holds right after a match whose last
matched character is a word character: the next character must be absent or
non-word. -/
def boundaryAfterWord : List Char → Bool
  | [] => true
  | d :: _ => !isWordChar d

/-- Matcher for the regex `\bw\b` (with `w` a literal word made of word
characters), checked at the current position, including the trailing `\b`. The
leading `\b` is handled by the scanner `replGo`, which tracks the previous
character. -/
def mWordCI (w : List Char) (s : List Char) : Bool :=
  match consumeCI w s with
  | some rest => boundaryAfterWord rest
  | none => false

/-- Matcher for the regex `\bSt.\b` as written in the source (line 42), whose dot
is unescaped: `.` matches any non-line-terminator character. The trailing `\b`
direction depends on whether the wildcard-matched character is a word character. -/
def mStDot (s : List Char) : Bool :=
  match s with
  | c1 :: c2 :: c3 :: rest =>
    c1.toLower = 's' && c2.toLower = 't' && !isLineTerm c3 &&
      (match rest with
       | [] => isWordChar c3
       | d :: _ => isWordChar c3 != isWordChar d)
  | _ => false

/-- Global regex replacement scanner, as performed by `String.prototype.replace`
with a `g` regex: scan left to right over the original string; at each position
where the previous character is not a word character (the leading `\b`; all
patterns here start with a word character) and the matcher `m` fires, emit `rep`
and skip the `len` matched characters (scanning resumes after the match, and
boundary checks keep using the original characters); otherwise emit the character
and move on. `skip` counts matched characters still to be consumed. -/
def replGo (m : List Char → Bool) (len : Nat) (rep : List Char) :
    Bool → Nat → List Char → List Char
  | _, _, [] => []
  | _, k + 1, c :: rest => replGo m len rep (isWordChar c) k rest
  | prevWord, 0, c :: rest =>
    if !prevWord && m (c :: rest) then
      rep ++ replGo m len rep (isWordChar c) (len - 1) rest
    else
      c :: replGo m len rep (isWordChar c) 0 rest

/-- `.replace(/\bw\b/gi, rep)` for a literal word `w`. -/
def replaceWordCI (w rep : String) (s : List Char) : List Char :=
  replGo (mWordCI w.data) w.data.length rep.data false 0 s

/-- `.replace(/\bSt.\b/gi, 'ST')` — the source's unescaped-dot pattern. -/
def replaceStDot (s : List Char) : List Char :=
  replGo mStDot 3 "ST".data false 0 s

/-- JS whitespace, as removed by `String.prototype.trim` (WhiteSpace and
LineTerminator code points). -/
def isJsWs (c : Char) : Bool :=
  c = ' ' || c = '\t' || c = '\n' || c = '\r' || c = '\x0b' || c = '\x0c' ||
  c = ' ' || c = ' ' || (' ' ≤ c && c ≤ ' ') ||
  c = ' ' || c = ' ' || c = ' ' || c = ' ' ||
  c = '　' || c = '﻿'

/-- `String.prototype.trim`. -/
def jsTrim (s : List Char) : List Char :=
  ((s.dropWhile isJsWs).reverse.dropWhile isJsWs).reverse

/-! ## The address normalizer (src/index.ts lines 36-50) -/

/-- `normalizeAddress`, translated replace by replace in source order: strip all
periods, apply the word substitutions (including the unescaped-dot `\bSt.\b`
pattern), uppercase, trim. `toUpperCase` is modelled on ASCII letters; all
substitution patterns are ASCII. -/
def normalizeAddress (address : String) : String :=
  ⟨jsTrim <| (·.map Char.toUpper) <|
    replaceWordCI "AVE" "AV" <|
    replaceWordCI "AV" "AV" <|
    replaceWordCI "Avenue" "AV" <|
    replaceWordCI "Ave" "AV" <|
    replaceWordCI "AVENUE" "AV" <|
    replaceStDot <|
    replaceWordCI "ST" "ST" <|
    replaceWordCI "St" "ST" <|
    replaceWordCI "STREET" "ST" <|
    address.data.filter (· ≠ '.')⟩

/-! ## Records and scalar values -/

/-- A JS scalar value as stored in a datastore record: string, number, or null.
Numbers are modelled as rationals (the monetary amounts the code manipulates are
decimal strings, on which JS float arithmetic is exact). -/
inductive Scalar where
  | str (s : String)
  | num (q : ℚ)
  | null
deriving DecidableEq

/-- A datastore record: an open mapping from field name to scalar value. -/
structure Rec where
  fields : List (String × Scalar)
deriving DecidableEq

/-- JS property access `r[k]`: `none` models `undefined`. -/
def Rec.get (r : Rec) (k : String) : Option Scalar :=
  (r.fields.find? (fun p => p.1 == k)).map (fun p => p.2)

/-- JS truthiness of a scalar (`undefined` is handled by `jsOr`). -/
def Scalar.truthy : Scalar → Bool
  | .str s => !(s == "")
  | .num q => !(q == 0)
  | .null => false

/-- JS `v || d` on a possibly-undefined scalar. -/
def jsOr (v : Option Scalar) (d : Scalar) : Scalar :=
  match v with
  | some s => if s.truthy then s else d
  | none => d

/-- Calling a string method on a scalar: strings succeed, numbers raise
`TypeError` (e.g. `(5).trim is not a function`), matching JS. `null` never
reaches a method call in the embedded code (it is falsy, so `jsOr` replaces it),
but is modelled as the TypeError it would raise. -/
def Scalar.getStr : Scalar → Except String String
  | .str s => .ok s
  | _ => .error "TypeError: not a function"

/-- `(v).trim()` after a `||` default: strings are trimmed, numbers raise. -/
def Scalar.trimS (v : Scalar) : Except String String := do
  let s ← v.getStr
  return ⟨jsTrim s.data⟩

/-- Substring scan: does `needle` occur contiguously in the list? -/
def isSubList (needle : List Char) : List Char → Bool
  | [] => needle.isEmpty
  | c :: rest => needle.isPrefixOf (c :: rest) || isSubList needle rest

/-- `haystack.includes(needle)`. -/
def jsIncludes (haystack needle : String) : Bool :=
  isSubList needle.data haystack.data

/-! ## The remote datastore envelope -/

/-- The body of a datastore response: `result.records` and the optional
`result.total`. -/
structure DsResult where
  records : List Rec
  total : Option Nat
deriving DecidableEq

/-- A datastore response as the code observes it: `ok` is the HTTP success bit
(`response.ok`, i.e. 2xx), `success` is the body's success flag, `result` the
body's result object (the spec's response envelope always carries one). A
network-level failure (fetch rejection, JSON parse error) is modelled by the
oracle returning `Except.error` instead of a response. -/
structure DsResponse where
  ok : Bool
  success : Bool
  result : DsResult
deriving DecidableEq

/-- Fixed configuration constants (src/index.ts lines 17-18). -/
def PARALLEL_REQUESTS : Nat := 7

def PAGE_SIZE : Nat := 100

/-! ## The bounded-concurrency paginator -/

/-- The offset loop `for (let i = 0; i < total; i += PAGE_SIZE) offsets.push(i)`,
with fuel (one unit per iteration; `total` units always suffice since the step is
positive). -/
def offsetsGo : Nat → Nat → Nat → List Nat
  | 0, _, _ => []
  | fuel + 1, i, total => if i < total then i :: offsetsGo fuel (i + PAGE_SIZE) total else []

/-- All page offsets computed from a reported total. -/
def pageOffsets (total : Nat) : List Nat :=
  offsetsGo total 0 total

/-- `offsets.slice(i, i + PARALLEL_REQUESTS)` batching: split a list into chunks
of at most `k` elements (`k ≥ 1`), preserving order. Fuel is one unit per chunk;
`l.length` units always suffice. -/
def chunksGo (k : Nat) : Nat → List α → List (List α)
  | _, [] => []
  | 0, _ => []
  | fuel + 1, c :: rest => (c :: rest.take (k - 1)) :: chunksGo k fuel (rest.drop (k - 1))

/-- Partition into sequential batches of at most `k` offsets. -/
def chunksOf (k : Nat) (l : List α) : List (List α) :=
  chunksGo k l.length l

/-- The shared batching loop (identical in source lines 88-96, 260-268, 337-356
and 512-519): for each batch of at most `PARALLEL_REQUESTS` offsets, fetch all
pages of the batch (`Promise.all`: all must succeed, results kept in offset
order), then push every batch's records into the accumulator in order. A single
failure anywhere aborts the whole run with the error (`Promise.all` reports the
first rejection in completion-time order; the model reports the first in offset
order — which call fails may differ, failing at all does not). -/
def batchedFetch (chunkFn : Nat → Except String (List Rec)) (offsets : List Nat) :
    Except String (List Rec) :=
  match (chunksOf PARALLEL_REQUESTS offsets).mapM (fun chunkOffsets => chunkOffsets.mapM chunkFn) with
  | .error e => .error e
  | .ok chunkResults => .ok ((chunkResults.map List.flatten).flatten)

/-- The shared count-probe prologue (source lines 77-82, 249-254, 326-331 and
503-508): fail on a non-2xx HTTP status, then read `result.total || 0`. The
body's `success` flag is NOT consulted here (unlike in the chunk fetchers). -/
def probeTotal (probe : Except String DsResponse) : Except String Nat :=
  match probe with
  | .error e => .error e
  | .ok initialRes =>
    if !initialRes.ok then .error "API Error"
    else .ok (initialRes.result.total.getD 0)

/-- `fetchPermitChunk` (lines 53-66): one page fetch that fails on a non-2xx
status or on `success: false`, otherwise yields the page's records. The network
oracle `net` maps (address, offset) to the response. -/
def fetchPermitChunk (net : String → Nat → Except String DsResponse)
    (address : String) (offset : Nat) : Except String (List Rec) :=
  match net address offset with
  | .error e => .error e
  | .ok response =>
    if !response.ok then .error "API Error"
    else if !response.success then .error "API call unsuccessful."
    else .ok response.result.records

/-- `fetchAllPermitsParallel` (lines 69-98): count probe (HTTP-status check only,
`total || 0`), empty result on zero total, otherwise batched page fetches. -/
def fetchAllPermitsParallel (probe : Except String DsResponse)
    (net : String → Nat → Except String DsResponse) (address : String) :
    Except String (List Rec) :=
  match probeTotal probe with
  | .error e => .error e
  | .ok total =>
    if total = 0 then .ok []
    else batchedFetch (fetchPermitChunk net address) (pageOffsets total)

/-- Opaque query-descriptor data threaded to the oracles: the optional full-text
term and the exact filters, which the control flow never inspects. -/
structure FetchQuery where
  q : Option String
  filters : Option (List (String × String))

/-- `fetchFoodChunk` (lines 222-237): same checks as the permit chunk. -/
def fetchFoodChunk (net : FetchQuery → Nat → Except String DsResponse)
    (query : FetchQuery) (offset : Nat) : Except String (List Rec) :=
  match net query offset with
  | .error e => .error e
  | .ok response =>
    if !response.ok then .error "API Error"
    else if !response.success then .error "API call unsuccessful."
    else .ok response.result.records

/-- `fetchAllFoodViolations` (lines 239-270). -/
def fetchAllFoodViolations (probe : Except String DsResponse)
    (net : FetchQuery → Nat → Except String DsResponse) (query : FetchQuery) :
    Except String (List Rec) :=
  match probeTotal probe with
  | .error e => .error e
  | .ok total =>
    if total = 0 then .ok []
    else batchedFetch (fetchFoodChunk net query) (pageOffsets total)

/-- The crime page fetch inlined in `fetchAllCrimeRecords` (lines 350-352):
`fetch(url).then(res => res.json()).then(data => data.result.records)` — it
checks NEITHER the HTTP status NOR the body's `success` flag; only a rejected
promise (network/parse failure, modelled as `Except.error` from the oracle)
propagates. -/
def fetchCrimeChunk (net : FetchQuery → Nat → Except String DsResponse)
    (query : FetchQuery) (offset : Nat) : Except String (List Rec) :=
  match net query offset with
  | .error e => .error e
  | .ok data => .ok data.result.records

/-- `fetchAllCrimeRecords` (lines 317-358). -/
def fetchAllCrimeRecords (probe : Except String DsResponse)
    (net : FetchQuery → Nat → Except String DsResponse) (query : FetchQuery) :
    Except String (List Rec) :=
  match probeTotal probe with
  | .error e => .error e
  | .ok total =>
    if total = 0 then .ok []
    else batchedFetch (fetchCrimeChunk net query) (pageOffsets total)

/-- `fetchCheckbookChunk` (lines 478-492): same checks as the permit chunk. -/
def fetchCheckbookChunk (net : FetchQuery → Nat → Except String DsResponse)
    (query : FetchQuery) (offset : Nat) : Except String (List Rec) :=
  match net query offset with
  | .error e => .error e
  | .ok response =>
    if !response.ok then .error "API Error"
    else if !response.success then .error "API call unsuccessful."
    else .ok response.result.records

/-- `fetchAllCheckbookRecords` (lines 495-521). -/
def fetchAllCheckbookRecords (probe : Except String DsResponse)
    (net : FetchQuery → Nat → Except String DsResponse) (query : FetchQuery) :
    Except String (List Rec) :=
  match probeTotal probe with
  | .error e => .error e
  | .ok total =>
    if total = 0 then .ok []
    else batchedFetch (fetchCheckbookChunk net query) (pageOffsets total)

/-! ## Aggregation: count summarization (src/index.ts lines 361-372) -/

/-- One step of the JS counting loop: `counts[val] = (counts[val] || 0) + 1`.
A JS object keeps one property per key: an existing key is updated in place, a
new key is appended. -/
def assocIncr (counts : List (String × Nat)) (k : String) : List (String × Nat) :=
  if (counts.lookup k).isSome then
    counts.map (fun p => if p.1 == k then (p.1, p.2 + 1) else p)
  else counts ++ [(k, 1)]

/-- The `for (const r of records)` loop of `countAndSummarize`, with the counts
object as accumulator. `(r[field] || "UNKNOWN").trim()` raises a TypeError when
the field holds a truthy number. -/
def buildCounts (field : String) : List Rec → List (String × Nat) →
    Except String (List (String × Nat))
  | [], counts => .ok counts
  | r :: rest, counts =>
    match (jsOr (r.get field) (.str "UNKNOWN")).trimS with
    | .error e => .error e
    | .ok val => buildCounts field rest (assocIncr counts val)

/-- Numeric value of an all-digit key. -/
def keyNat (s : String) : Nat :=
  s.data.foldl (fun acc c => acc * 10 + (c.toNat - 48)) 0

/-- Whether a JS object key is an array index (ECMA-262): the canonical decimal
form of an integer below 2^32 - 1 — nonempty, all digits, no leading zero. Such
keys are enumerated before all other keys, in ascending numeric order. -/
def isArrayIndexKey (s : String) : Bool :=
  !s.data.isEmpty && s.data.all Char.isDigit &&
    (s == "0" || s.data.head? != some '0') && keyNat s < 4294967295

/-- Ascending order on array-index keys (used by the JS own-property ordering). -/
def keyAsc (a b : String × β) : Prop := keyNat a.1 ≤ keyNat b.1

instance : DecidableRel (@keyAsc β) := fun _ _ => inferInstanceAs (Decidable (_ ≤ _))

/-- `Object.entries` on a JS object built by the loops above: array-index keys
first in ascending numeric order, then the remaining keys in insertion order
(ECMA-262 OrdinaryOwnPropertyKeys). -/
def jsObjectEntries (assoc : List (String × β)) : List (String × β) :=
  List.insertionSort keyAsc (assoc.filter (fun p => isArrayIndexKey p.1)) ++
    assoc.filter (fun p => !isArrayIndexKey p.1)

/-- The comparator `(a, b) => b[1] - a[1]`: `a` sorts no later than `b` iff its
metric is at least `b`'s. `Array.prototype.sort` is a stable sort with respect to
this relation (ES2019), embedded as Mathlib's stable `insertionSort`. -/
def countGE (a b : String × Nat) : Prop := b.2 ≤ a.2

instance : DecidableRel countGE := fun _ _ => inferInstanceAs (Decidable (_ ≤ _))

instance : IsTotal (String × Nat) countGE := ⟨fun a b => le_total b.2 a.2⟩

instance : IsTrans (String × Nat) countGE := ⟨fun _ _ _ hab hbc => le_trans hbc hab⟩

/-- `countAndSummarize` (lines 361-372): count by field, enumerate the counts
object, sort descending by count (stable), truncate to `top`, and render
`"{rank}. {key}: {count}"` lines. -/
def countAndSummarize (records : List Rec) (field : String) (top : Nat) :
    Except String String :=
  match buildCounts field records [] with
  | .error e => .error e
  | .ok counts =>
    let sorted := List.insertionSort countGE (jsObjectEntries counts)
    .ok ("\n".intercalate ((sorted.take top).enum.map
      (fun p => s!"{p.1 + 1}. {p.2.1}: {p.2.2}")))

/-! ## Aggregation: monetary sums (src/index.ts lines 562-571) -/

/-- `.replace(/[^0-9.-]+/g, "")`: keep only digits, `.` and `-`. -/
def stripNonMoney (s : String) : String :=
  ⟨s.data.filter (fun c => c.isDigit || c = '.' || c = '-')⟩

/-- Decimal value of a digit list (most significant first). -/
def digitsToNat (l : List Char) : Nat :=
  l.foldl (fun acc c => acc * 10 + (c.toNat - 48)) 0

/-- `parseFloat` on a string containing only digits, `.` and `-` (everything else
was stripped, so sign/exponent prefixes other than a leading `-` cannot occur):
an optional leading `-`, then digits, then optionally `.` and more digits,
stopping at the first character that does not fit; `none` models `NaN` (no digit
parsed at all). Values are exact rationals; the decimal strings the code meets
are exactly representable as JS floats. -/
def jsParseFloat (s : List Char) : Option ℚ :=
  let core : List Char → Option ℚ := fun t =>
    let intPart := t.takeWhile Char.isDigit
    let rest := t.dropWhile Char.isDigit
    let fracPart :=
      match rest with
      | '.' :: r => r.takeWhile Char.isDigit
      | _ => []
    if intPart.isEmpty && fracPart.isEmpty then none
    else some ((digitsToNat intPart : ℚ) + (digitsToNat fracPart : ℚ) / 10 ^ fracPart.length)
  match s with
  | '-' :: t => (core t).map (fun q => -q)
  | t => core t

/-- One step of the JS totals loop: `totals[v] = (totals[v] || 0) + x`. -/
def assocAdd (totals : List (String × ℚ)) (k : String) (x : ℚ) : List (String × ℚ) :=
  if (totals.lookup k).isSome then
    totals.map (fun p => if p.1 == k then (p.1, p.2 + x) else p)
  else totals ++ [(k, x)]

/-- One record of the checkbook summarization loop (lines 563-567): trim the
vendor (TypeError on a truthy number), strip and parse the monetary amount
(TypeError on a truthy number, `NaN → 0` via `isNaN(amt) ? 0 : amt`). -/
def checkbookStep (totals : List (String × ℚ)) (r : Rec) :
    Except String (List (String × ℚ)) :=
  match (jsOr (r.get "Vendor Name") (.str "UNKNOWN")).trimS with
  | .error e => .error e
  | .ok v =>
    match (jsOr (r.get "Monetary Amount") (.str "0")).getStr with
    | .error e => .error e
    | .ok raw =>
      let amt := jsParseFloat (stripNonMoney raw).data
      .ok (assocAdd totals v (amt.getD 0))

/-- The full checkbook totals loop. -/
def checkbookTotals : List Rec → List (String × ℚ) → Except String (List (String × ℚ))
  | [], totals => .ok totals
  | r :: rest, totals =>
    match checkbookStep totals r with
    | .error e => .error e
    | .ok t => checkbookTotals rest t

/-- The checkbook comparator `(a, b) => b[1] - a[1]` on rational totals. -/
def amountGE (a b : String × ℚ) : Prop := b.2 ≤ a.2

instance : DecidableRel amountGE := fun _ _ => inferInstanceAs (Decidable (_ ≤ _))

instance : IsTotal (String × ℚ) amountGE := ⟨fun a b => le_total b.2 a.2⟩

instance : IsTrans (String × ℚ) amountGE := ⟨fun _ _ _ hab hbc => le_trans hbc hab⟩

/-- `topVendors` (lines 568-571, up to the text rendering, whose
`toLocaleString` number formatting is presentation): enumerate, sort descending
by total spend (stable), truncate to `top`. -/
def topVendors (totals : List (String × ℚ)) (top : Nat) : List (String × ℚ) :=
  (List.insertionSort amountGE (jsObjectEntries totals)).take top

/-! ## Tool handlers -/

/-- The permits reconciliation predicate (handler lines 122-125): strict match or
bidirectional substring containment of the normalized addresses, with
`p.address || ""` defaulting a missing/falsy address field. -/
def permitMatch (searchNorm : String) (p : Rec) : Except String Bool :=
  match (jsOr (p.get "address") (.str "")).getStr with
  | .error e => .error e
  | .ok s =>
    let recNorm := normalizeAddress s
    .ok (recNorm == searchNorm || jsIncludes recNorm searchNorm || jsIncludes searchNorm recNorm)

/-- `allRecords.filter(...)` of the permits handler (line 122). -/
def permitMatches (searchNorm : String) : List Rec → Except String (List Rec)
  | [] => .ok []
  | p :: rest =>
    match permitMatch searchNorm p with
    | .error e => .error e
    | .ok keep =>
      match permitMatches searchNorm rest with
      | .error e => .error e
      | .ok tail => .ok (if keep then p :: tail else tail)

/-- JS truthiness of an optional string parameter. -/
def jsStrTruthy : Option String → Bool
  | some s => !(s == "")
  | none => false

/-- The 311 resource identifier (line 13). -/
def SERVICE_RESOURCE_ID : String := "9d7c2214-4709-478a-a2e8-fb2020a5bb94"

/-- The single datastore request the 311 handler builds (lines 150-158). -/
structure Ds311Request where
  resource_id : String
  limit : Nat
  q : Option String
  filters : Option String
deriving DecidableEq

/-- `params.q` construction (lines 155-156): `if (address) params.q = address;
if (type) params.q = params.q ? params.q + " " + type : type`. -/
def build311Q (address ty : Option String) : Option String :=
  let q1 := if jsStrTruthy address then address else none
  if jsStrTruthy ty then
    match q1 with
    | some qq => some (qq ++ " " ++ ty.getD "")
    | none => ty
  else q1

/-- The request of one `get_311_requests` invocation; `filters` carries the
`case_status` value (`JSON.stringify({case_status})` is a faithful encoding of
just this value). -/
def build311Request (address case_status ty : Option String) (limit : Nat) :
    Ds311Request :=
  { resource_id := SERVICE_RESOURCE_ID
    limit := limit
    q := build311Q address ty
    filters := if jsStrTruthy case_status then case_status else none }

/-- `r.location_street_name || r.location || ""` (line 175). -/
def locationValue (r : Rec) : Scalar :=
  jsOr (r.get "location_street_name") (jsOr (r.get "location") (.str ""))

/-- The resolved location as a string, when it is one. -/
def locString (r : Rec) : Option String :=
  match locationValue r with
  | .str s => some s
  | _ => none

/-- The 311 address filter (lines 173-177): keep records whose normalized
location equals the normalized query address. -/
def filter311 (normAddr : String) : List Rec → Except String (List Rec)
  | [] => .ok []
  | r :: rest =>
    match (locationValue r).getStr with
    | .error e => .error e
    | .ok s =>
      match filter311 normAddr rest with
      | .error e => .error e
      | .ok tail => .ok (if normalizeAddress s == normAddr then r :: tail else tail)

/-- The `get_311_requests` handler (lines 149-190) up to record selection (the
final `field: value` text rendering is presentation): build the one request,
check its response, and filter by normalized address when one was given. The
remote interaction happens exactly once, at `build311Request`'s request. -/
def get311Records (address case_status ty : Option String) (limit : Nat)
    (remote : Ds311Request → Except String DsResponse) : Except String (List Rec) :=
  match remote (build311Request address case_status ty limit) with
  | .error e => .error e
  | .ok response =>
    if !response.ok then .error "API Error"
    else if !response.success then .error "API call unsuccessful."
    else if jsStrTruthy address then
      filter311 (normalizeAddress (address.getD "")) response.result.records
    else .ok response.result.records

/-- The zod schema of the 311 `limit` parameter (line 147):
`z.number().min(1).max(100).default(10)` — absent becomes 10, out-of-range is
rejected (the tool call fails validation, `none`). -/
def limitSchema (given : Option Nat) : Option Nat :=
  match given with
  | none => some 10
  | some n => if 1 ≤ n ∧ n ≤ 100 then some n else none

/-! ## Paginator lemmas -/

theorem mapM_ok_of_forall {α β : Type} {f : α → Except String β} {g : α → β} :
    ∀ {l : List α}, (∀ x ∈ l, f x = .ok (g x)) → l.mapM f = .ok (l.map g)
  | [], _ => rfl
  | x :: xs, h => by
    have hx := h x (by simp)
    have hxs := mapM_ok_of_forall (fun y hy => h y (List.mem_cons_of_mem _ hy))
    simp only [List.mapM_cons, hx, hxs, List.map_cons]
    rfl

theorem mapM_error_of_mem {α β : Type} {f : α → Except String β} {x : α} :
    ∀ {l : List α}, x ∈ l → (∀ y, f x ≠ .ok y) → ∃ e, l.mapM f = .error e := by
  intro l
  induction l with
  | nil => intro h; exact absurd h (List.not_mem_nil x)
  | cons z zs ih =>
    intro hmem hfail
    rcases List.mem_cons.mp hmem with rfl | hzs
    · match hfz : f x with
      | .ok y => exact absurd hfz (hfail y)
      | .error e => exact ⟨e, by simp only [List.mapM_cons, hfz]; rfl⟩
    · match hfz : f z with
      | .error e => exact ⟨e, by simp only [List.mapM_cons, hfz]; rfl⟩
      | .ok y =>
        obtain ⟨e, he⟩ := ih hzs hfail
        exact ⟨e, by simp only [List.mapM_cons, hfz, he]; rfl⟩

theorem mapM_ok_forall_ok {α β : Type} {f : α → Except String β} {l : List α}
    {ys : List β} (h : l.mapM f = .ok ys) : ∀ x ∈ l, ∃ y, f x = .ok y := by
  intro x hx
  match hfx : f x with
  | .ok y => exact ⟨y, rfl⟩
  | .error e =>
    obtain ⟨e', he'⟩ := mapM_error_of_mem hx
      (fun y (hy : f x = Except.ok y) => by rw [hfx] at hy; cases hy)
    rw [he'] at h
    cases h

theorem chunksGo_flatten {α : Type} (k : Nat) (_hk : 1 ≤ k) (fuel : Nat) :
    ∀ l : List α, l.length ≤ fuel → (chunksGo k fuel l).flatten = l := by
  induction fuel with
  | zero =>
    intro l h
    cases l with
    | nil => simp [chunksGo]
    | cons c rest => simp at h
  | succ fuel ih =>
    intro l h
    cases l with
    | nil => simp [chunksGo]
    | cons c rest =>
      have hlen : (rest.drop (k - 1)).length ≤ fuel := by
        rw [List.length_drop]
        simp only [List.length_cons] at h
        omega
      simp only [chunksGo, List.flatten_cons, ih _ hlen]
      rw [List.cons_append, List.take_append_drop]

theorem chunksOf_flatten {α : Type} (k : Nat) (hk : 1 ≤ k) (l : List α) :
    (chunksOf k l).flatten = l :=
  chunksGo_flatten k hk l.length l le_rfl

theorem mem_of_mem_chunksOf {α : Type} {k : Nat} {l : List α}
    {c : List α} {x : α} (hc : c ∈ chunksOf k l) (hx : x ∈ c) (hk : 1 ≤ k) : x ∈ l := by
  rw [← chunksOf_flatten k hk l]
  exact List.mem_flatten_of_mem hc hx

theorem exists_chunk_of_mem {α : Type} (k : Nat) (hk : 1 ≤ k) {l : List α} {x : α}
    (hx : x ∈ l) : ∃ c ∈ chunksOf k l, x ∈ c := by
  rw [← chunksOf_flatten k hk l] at hx
  simpa using List.mem_flatten.mp hx

theorem flatten_map_flatten {α β : Type} (g : α → List β) :
    ∀ X : List (List α), ((X.map (fun c => c.map g)).map List.flatten).flatten
      = (X.flatten.map g).flatten := by
  intro X
  induction X with
  | nil => rfl
  | cons c X ih =>
    simp only [List.map_cons, List.flatten_cons, List.map_append, List.flatten_append, ih]

theorem batchedFetch_ok_of_forall {chunkFn : Nat → Except String (List Rec)}
    {g : Nat → List Rec} {offsets : List Nat}
    (h : ∀ o ∈ offsets, chunkFn o = .ok (g o)) :
    batchedFetch chunkFn offsets = .ok ((offsets.map g).flatten) := by
  have h1 : ∀ c ∈ chunksOf PARALLEL_REQUESTS offsets, c.mapM chunkFn = .ok (c.map g) :=
    fun c hc => mapM_ok_of_forall
      (fun o ho => h o (mem_of_mem_chunksOf hc ho (by decide)))
  have houter : (chunksOf PARALLEL_REQUESTS offsets).mapM (fun c => c.mapM chunkFn)
      = .ok ((chunksOf PARALLEL_REQUESTS offsets).map (fun c => c.map g)) :=
    mapM_ok_of_forall h1
  unfold batchedFetch
  rw [houter]
  show Except.ok
      (((chunksOf PARALLEL_REQUESTS offsets).map (fun c => c.map g)).map List.flatten).flatten
    = Except.ok ((offsets.map g).flatten)
  rw [flatten_map_flatten, chunksOf_flatten PARALLEL_REQUESTS (by decide)]

theorem batchedFetch_error {chunkFn : Nat → Except String (List Rec)}
    {offsets : List Nat} {o : Nat} (ho : o ∈ offsets)
    (hfail : ∀ recs, chunkFn o ≠ .ok recs) :
    ∃ e, batchedFetch chunkFn offsets = .error e := by
  obtain ⟨c, hc, hoc⟩ := exists_chunk_of_mem PARALLEL_REQUESTS (by decide) ho
  have hcfail : ∀ ys, c.mapM chunkFn ≠ .ok ys := by
    intro ys hys
    obtain ⟨y, hy⟩ := mapM_ok_forall_ok hys o hoc
    exact hfail y hy
  obtain ⟨e, he⟩ := mapM_error_of_mem hc hcfail
  exact ⟨e, by unfold batchedFetch; rw [he]⟩

theorem offsetsGo_eq : ∀ (fuel i total : Nat),
    (total - i + PAGE_SIZE - 1) / PAGE_SIZE ≤ fuel →
    offsetsGo fuel i total
      = (List.range ((total - i + PAGE_SIZE - 1) / PAGE_SIZE)).map (fun j => i + PAGE_SIZE * j) := by
  intro fuel
  induction fuel with
  | zero =>
    intro i total h
    have h0 : (total - i + PAGE_SIZE - 1) / PAGE_SIZE = 0 := Nat.le_zero.mp h
    rw [offsetsGo, h0]
    simp
  | succ fuel ih =>
    intro i total h
    by_cases hit : i < total
    · have hpos : 1 ≤ (total - i + PAGE_SIZE - 1) / PAGE_SIZE := by
        show 1 ≤ (total - i + 100 - 1) / 100
        omega
      obtain ⟨n, hn⟩ : ∃ n, (total - i + PAGE_SIZE - 1) / PAGE_SIZE = n + 1 :=
        ⟨_, (Nat.succ_pred_eq_of_pos hpos).symm⟩
      have hn' : (total - (i + PAGE_SIZE) + PAGE_SIZE - 1) / PAGE_SIZE = n := by
        show (total - (i + 100) + 100 - 1) / 100 = n
        have : (total - i + 100 - 1) / 100 = n + 1 := hn
        omega
      rw [offsetsGo, if_pos hit, hn, List.range_succ_eq_map,
        ih (i + PAGE_SIZE) total (by omega)]
      simp only [List.map_cons, Nat.mul_zero, Nat.add_zero, List.map_map, hn']
      refine congrArg (i :: ·) (List.map_congr_left fun j _ => ?_)
      simp [Nat.succ_eq_add_one]
      ring_nf
    · have h0 : (total - i + PAGE_SIZE - 1) / PAGE_SIZE = 0 := by
        show (total - i + 100 - 1) / 100 = 0
        omega
      rw [offsetsGo, if_neg hit, h0]
      simp

theorem pageOffsets_eq (total : Nat) :
    pageOffsets total
      = (List.range ((total + PAGE_SIZE - 1) / PAGE_SIZE)).map (fun j => PAGE_SIZE * j) := by
  have hfuel : (total - 0 + PAGE_SIZE - 1) / PAGE_SIZE ≤ total := by
    show (total - 0 + 100 - 1) / 100 ≤ total
    omega
  have := offsetsGo_eq total 0 total hfuel
  rw [pageOffsets, this]
  simp

theorem flatten_pages : ∀ (n : Nat) (rows : List Rec), rows.length ≤ n * PAGE_SIZE →
    ((List.range n).map (fun j => (rows.drop (PAGE_SIZE * j)).take PAGE_SIZE)).flatten = rows := by
  intro n
  induction n with
  | zero =>
    intro rows h
    have h0 : rows = [] := List.length_eq_zero.mp (Nat.le_zero.mp (by simpa using h))
    subst h0
    rfl
  | succ n ih =>
    intro rows h
    have htail : ((List.range n).map
        (fun j => (rows.drop (PAGE_SIZE * (j + 1))).take PAGE_SIZE)).flatten
        = rows.drop PAGE_SIZE := by
      have hcongr : ∀ j ∈ List.range n, (rows.drop (PAGE_SIZE * (j + 1))).take PAGE_SIZE
          = ((rows.drop PAGE_SIZE).drop (PAGE_SIZE * j)).take PAGE_SIZE := by
        intro j _
        rw [List.drop_drop]
        congr 1
        ring_nf
      rw [List.map_congr_left hcongr]
      refine ih (rows.drop PAGE_SIZE) ?_
      rw [List.length_drop]
      have h100 : rows.length ≤ n * 100 + 100 := by
        have : rows.length ≤ (n + 1) * 100 := h
        omega
      show rows.length - 100 ≤ n * 100
      omega
    rw [List.range_succ_eq_map, List.map_cons, List.map_map, List.flatten_cons]
    have hcomp : (List.range n).map
        ((fun j => (rows.drop (PAGE_SIZE * j)).take PAGE_SIZE) ∘ Nat.succ)
        = (List.range n).map (fun j => (rows.drop (PAGE_SIZE * (j + 1))).take PAGE_SIZE) := rfl
    rw [hcomp, htail, Nat.mul_zero, List.drop_zero, List.take_append_drop]

/-- A response that a strict chunk fetcher (permits, food, checkbook) rejects —
non-2xx status or `success: false` — makes the chunk expression fail. -/
theorem strictChunk_fail {resp : DsResponse} (hbad : resp.ok = false ∨ resp.success = false) :
    ∀ recs, (if !resp.ok then (Except.error "API Error" : Except String (List Rec))
      else if !resp.success then Except.error "API call unsuccessful."
      else Except.ok resp.result.records) ≠ .ok recs := by
  intro recs h
  rcases hbad with hb | hb
  · simp [hb] at h
  · cases hro : resp.ok with
    | false => simp [hro] at h
    | true => simp [hro, hb] at h

/-- A 2xx probe whose body reports total `T` probes to `T`. -/
theorem probeTotal_ok {probe : DsResponse} {T : Nat} (hok : probe.ok = true)
    (htot : probe.result.total = some T) : probeTotal (.ok probe) = .ok T := by
  show (if (!probe.ok) = true then Except.error "API Error"
    else Except.ok (probe.result.total.getD 0)) = .ok T
  rw [hok, htot]
  rfl

/-- Unfolding `fetchAllPermitsParallel` along a successful probe. -/
theorem fetchAllPermits_eq {probe : Except String DsResponse}
    {net : String → Nat → Except String DsResponse} {address : String} {T : Nat}
    (hpt : probeTotal probe = .ok T) :
    fetchAllPermitsParallel probe net address
      = if T = 0 then .ok []
        else batchedFetch (fetchPermitChunk net address) (pageOffsets T) := by
  unfold fetchAllPermitsParallel
  rw [hpt]

/-- Unfolding `fetchAllFoodViolations` along a successful probe. -/
theorem fetchAllFood_eq {probe : Except String DsResponse}
    {net : FetchQuery → Nat → Except String DsResponse} {query : FetchQuery} {T : Nat}
    (hpt : probeTotal probe = .ok T) :
    fetchAllFoodViolations probe net query
      = if T = 0 then .ok []
        else batchedFetch (fetchFoodChunk net query) (pageOffsets T) := by
  unfold fetchAllFoodViolations
  rw [hpt]

/-- Unfolding `fetchAllCheckbookRecords` along a successful probe. -/
theorem fetchAllCheckbook_eq {probe : Except String DsResponse}
    {net : FetchQuery → Nat → Except String DsResponse} {query : FetchQuery} {T : Nat}
    (hpt : probeTotal probe = .ok T) :
    fetchAllCheckbookRecords probe net query
      = if T = 0 then .ok []
        else batchedFetch (fetchCheckbookChunk net query) (pageOffsets T) := by
  unfold fetchAllCheckbookRecords
  rw [hpt]

/-- A failing probe propagates out of any fetcher built on `probeTotal`. -/
theorem fetchAllPermits_probe_error {probe : Except String DsResponse}
    {net : String → Nat → Except String DsResponse} {address : String} {e : String}
    (hpt : probeTotal probe = .error e) :
    fetchAllPermitsParallel probe net address = .error e := by
  unfold fetchAllPermitsParallel
  rw [hpt]

/-- A failing probe propagates out of the checkbook fetcher. -/
theorem fetchAllCheckbook_probe_error {probe : Except String DsResponse}
    {net : FetchQuery → Nat → Except String DsResponse} {query : FetchQuery} {e : String}
    (hpt : probeTotal probe = .error e) :
    fetchAllCheckbookRecords probe net query = .error e := by
  unfold fetchAllCheckbookRecords
  rw [hpt]

/-! ## Claim theorems: paginator -/

/-- C3: the address normalizer is NOT idempotent, contrary to the claim (and to
the spec's stated requirement). The unescaped dot in the source's `/\bSt.\b/gi`
(line 42) makes `"st-a"` normalize to `"STA"`, which a second pass further
reduces to `"ST"`. -/
theorem normalizeAddress_not_idempotent :
    normalizeAddress (normalizeAddress "st-a") ≠ normalizeAddress "st-a" := by
  decide

/-- C4: when the count probe of `fetchAllPermitsParallel` reports total `T > 0`,
the paginator issues exactly `⌈T / 100⌉` page requests, at offsets
`0, 100, 200, ...` in ascending order; the concatenation follows the precomputed
offset order (batches in order, offsets ascending within a batch), so over a
static backing dataset `rows` with `|rows| = T`, where the page at offset `o`
returns the rows in `[o, min (o + 100) T)`, the result is exactly `rows` — in
particular at most `T` records. -/
theorem fetchAll_pagination_complete
    (T : Nat) (hT : 0 < T) (rows : List Rec) (hrows : rows.length = T)
    (probe : DsResponse) (hok : probe.ok = true) (htot : probe.result.total = some T)
    (net : String → Nat → Except String DsResponse) (address : String)
    (hnet : ∀ o ∈ pageOffsets T,
      net address o = .ok ⟨true, true, ⟨(rows.drop o).take PAGE_SIZE, some T⟩⟩) :
    pageOffsets T = (List.range ((T + PAGE_SIZE - 1) / PAGE_SIZE)).map (fun j => PAGE_SIZE * j)
    ∧ (pageOffsets T).length = (T + PAGE_SIZE - 1) / PAGE_SIZE
    ∧ fetchAllPermitsParallel (.ok probe) net address = .ok rows
    ∧ rows.length ≤ T := by
  refine ⟨pageOffsets_eq T, ?_, ?_, hrows ▸ le_rfl⟩
  · rw [pageOffsets_eq]
    simp
  · have hchunk : ∀ o ∈ pageOffsets T,
        fetchPermitChunk net address o = .ok ((rows.drop o).take PAGE_SIZE) := by
      intro o ho
      unfold fetchPermitChunk
      rw [hnet o ho]
      rfl
    rw [fetchAllPermits_eq (probeTotal_ok hok htot), if_neg (Nat.pos_iff_ne_zero.mp hT)]
    rw [batchedFetch_ok_of_forall hchunk]
    refine congrArg Except.ok ?_
    rw [pageOffsets_eq, List.map_map]
    exact flatten_pages _ rows (by
      rw [hrows]
      show T ≤ (T + 100 - 1) / 100 * 100
      omega)

/-- C4 witness: a static 150-row dataset fetched in two pages. -/
theorem fetchAll_pagination_complete_witness :
    fetchAllPermitsParallel (.ok ⟨true, true, ⟨[], some 150⟩⟩)
      (fun _ o => .ok ⟨true, true,
        ⟨((List.replicate 150 (⟨[]⟩ : Rec)).drop o).take PAGE_SIZE, some 150⟩⟩) "addr"
      = .ok (List.replicate 150 ⟨[]⟩) :=
  (fetchAll_pagination_complete 150 (by decide) (List.replicate 150 ⟨[]⟩) (by simp)
    ⟨true, true, ⟨[], some 150⟩⟩ rfl rfl _ "addr" (fun o _ => rfl)).2.2.1

/-- C1 counterexample: the crime fetcher's inline page fetch checks neither the
HTTP status nor the body's `success` flag (lines 350-352). Here the single page
response has a non-2xx status AND `success: false`, yet `fetchAllCrimeRecords`
succeeds and returns the failed page's body records — the claim is false for the
crime bulk fetch. -/
theorem crime_page_failure_ignored :
    fetchAllCrimeRecords (.ok ⟨true, true, ⟨[], some 1⟩⟩)
      (fun _ _ => .ok ⟨false, false, ⟨[⟨[("_id", .str "1")]⟩], none⟩⟩) ⟨none, none⟩
      = .ok [⟨[("_id", .str "1")]⟩] := rfl

/-- C1 (amended): for the permits, food-violations and checkbook bulk fetches,
any single page fetch answered with a non-2xx HTTP status or a `success: false`
envelope makes the whole fetchAll operation fail with an error (no partial
result); the crime bulk fetch does not inspect either flag on its page fetches
(see the counterexample). -/
theorem page_failure_aborts_strict_fetchers
    (T : Nat) (hT : 0 < T) (o : Nat) (ho : o ∈ pageOffsets T) (resp : DsResponse)
    (hbad : resp.ok = false ∨ resp.success = false) :
    (∀ (probe : DsResponse) (net : String → Nat → Except String DsResponse) (address : String),
      probe.ok = true → probe.result.total = some T → net address o = .ok resp →
      ∃ e, fetchAllPermitsParallel (.ok probe) net address = .error e)
    ∧ (∀ (probe : DsResponse) (net : FetchQuery → Nat → Except String DsResponse)
        (query : FetchQuery),
      probe.ok = true → probe.result.total = some T → net query o = .ok resp →
      ∃ e, fetchAllFoodViolations (.ok probe) net query = .error e)
    ∧ (∀ (probe : DsResponse) (net : FetchQuery → Nat → Except String DsResponse)
        (query : FetchQuery),
      probe.ok = true → probe.result.total = some T → net query o = .ok resp →
      ∃ e, fetchAllCheckbookRecords (.ok probe) net query = .error e) := by
  refine ⟨?_, ?_, ?_⟩
  · intro probe net address hok htot hresp
    have hfail : ∀ recs, fetchPermitChunk net address o ≠ .ok recs := by
      intro recs h
      unfold fetchPermitChunk at h
      rw [hresp] at h
      exact strictChunk_fail hbad recs h
    obtain ⟨e, he⟩ := batchedFetch_error ho hfail
    refine ⟨e, ?_⟩
    rw [fetchAllPermits_eq (probeTotal_ok hok htot), if_neg (Nat.pos_iff_ne_zero.mp hT), he]
  · intro probe net query hok htot hresp
    have hfail : ∀ recs, fetchFoodChunk net query o ≠ .ok recs := by
      intro recs h
      unfold fetchFoodChunk at h
      rw [hresp] at h
      exact strictChunk_fail hbad recs h
    obtain ⟨e, he⟩ := batchedFetch_error ho hfail
    refine ⟨e, ?_⟩
    rw [fetchAllFood_eq (probeTotal_ok hok htot), if_neg (Nat.pos_iff_ne_zero.mp hT), he]
  · intro probe net query hok htot hresp
    have hfail : ∀ recs, fetchCheckbookChunk net query o ≠ .ok recs := by
      intro recs h
      unfold fetchCheckbookChunk at h
      rw [hresp] at h
      exact strictChunk_fail hbad recs h
    obtain ⟨e, he⟩ := batchedFetch_error ho hfail
    refine ⟨e, ?_⟩
    rw [fetchAllCheckbook_eq (probeTotal_ok hok htot), if_neg (Nat.pos_iff_ne_zero.mp hT), he]

/-- C1 witness: concrete 1-row datasets whose sole page fetch returns a non-2xx
response; all three strict fetchers abort with an error. -/
theorem page_failure_aborts_strict_fetchers_witness :
    (∃ e, fetchAllPermitsParallel (.ok ⟨true, true, ⟨[], some 1⟩⟩)
      (fun _ _ => .ok ⟨false, false, ⟨[], none⟩⟩) "a" = .error e)
    ∧ (∃ e, fetchAllFoodViolations (.ok ⟨true, true, ⟨[], some 1⟩⟩)
      (fun _ _ => .ok ⟨false, false, ⟨[], none⟩⟩) ⟨none, none⟩ = .error e)
    ∧ (∃ e, fetchAllCheckbookRecords (.ok ⟨true, true, ⟨[], some 1⟩⟩)
      (fun _ _ => .ok ⟨false, false, ⟨[], none⟩⟩) ⟨none, none⟩ = .error e) := by
  have h := page_failure_aborts_strict_fetchers 1 (by decide) 0 (by decide)
    ⟨false, false, ⟨[], none⟩⟩ (Or.inl rfl)
  exact ⟨h.1 _ _ "a" rfl rfl rfl, h.2.1 _ _ ⟨none, none⟩ rfl rfl rfl,
    h.2.2 _ _ ⟨none, none⟩ rfl rfl rfl⟩

/-- C2 counterexample: a 2xx probe response carrying `success: false` (and no
total) does not produce a RemoteError: `fetchAllPermitsParallel` returns a
successful empty result, because the probe never inspects the body's `success`
flag (lines 78-81) — contradicting the claim that an explicit failure flag in
the probe body fails the operation with RemoteError. -/
theorem probe_success_flag_ignored :
    fetchAllPermitsParallel (.ok ⟨true, false, ⟨[], none⟩⟩)
      (fun _ _ => .error "never called") "addr" = .ok [] := rfl

/-- C2 (amended): the count probe of a paginated bulk fetch fails with
RemoteError exactly on a non-success HTTP status, in which case no page request
is issued (the result is the same for every page oracle); the body's `success`
flag is NOT inspected by the probe — the reported total (defaulting to 0)
drives the outcome, so in particular a probe reporting total 0 yields a
successful empty result with no page requests. Shown for the permits and
checkbook fetchers, whose probes the claim cites. -/
theorem probe_error_policy :
    (∀ (r : DsResponse) (net : String → Nat → Except String DsResponse) (address : String),
      r.ok = true → r.result.total.getD 0 = 0 →
      fetchAllPermitsParallel (.ok r) net address = .ok [])
    ∧ (∀ (r : DsResponse) (net : String → Nat → Except String DsResponse) (address : String),
      r.ok = false → fetchAllPermitsParallel (.ok r) net address = .error "API Error")
    ∧ (∀ (r : DsResponse) (net : FetchQuery → Nat → Except String DsResponse)
        (query : FetchQuery),
      r.ok = true → r.result.total.getD 0 = 0 →
      fetchAllCheckbookRecords (.ok r) net query = .ok [])
    ∧ (∀ (r : DsResponse) (net : FetchQuery → Nat → Except String DsResponse)
        (query : FetchQuery),
      r.ok = false → fetchAllCheckbookRecords (.ok r) net query = .error "API Error") := by
  have hpt0 : ∀ (r : DsResponse), r.ok = true → r.result.total.getD 0 = 0 →
      probeTotal (.ok r) = .ok 0 := by
    intro r h1 h2
    show (if (!r.ok) = true then Except.error "API Error"
      else Except.ok (r.result.total.getD 0)) = .ok 0
    rw [h1, h2]
    rfl
  have hptE : ∀ (r : DsResponse), r.ok = false →
      probeTotal (.ok r) = .error "API Error" := by
    intro r h1
    show (if (!r.ok) = true then Except.error "API Error"
      else Except.ok (r.result.total.getD 0)) = .error "API Error"
    rw [h1]
    rfl
  refine ⟨?_, ?_, ?_, ?_⟩
  · intro r net address h1 h2
    rw [fetchAllPermits_eq (hpt0 r h1 h2)]
    rfl
  · intro r net address h1
    exact fetchAllPermits_probe_error (hptE r h1)
  · intro r net query h1 h2
    rw [fetchAllCheckbook_eq (hpt0 r h1 h2)]
    rfl
  · intro r net query h1
    exact fetchAllCheckbook_probe_error (hptE r h1)

/-- C2 witness: concrete probes — zero-total 2xx probes give empty successes,
non-2xx probes give RemoteError, with no page oracle consulted. -/
theorem probe_error_policy_witness :
    fetchAllPermitsParallel (.ok ⟨true, true, ⟨[], some 0⟩⟩)
      (fun _ _ => .error "never called") "a" = .ok []
    ∧ fetchAllPermitsParallel (.ok ⟨false, true, ⟨[], some 5⟩⟩)
      (fun _ _ => .error "never called") "a" = .error "API Error"
    ∧ fetchAllCheckbookRecords (.ok ⟨true, true, ⟨[], none⟩⟩)
      (fun _ _ => .error "never called") ⟨none, none⟩ = .ok []
    ∧ fetchAllCheckbookRecords (.ok ⟨false, true, ⟨[], some 5⟩⟩)
      (fun _ _ => .error "never called") ⟨none, none⟩ = .error "API Error" :=
  ⟨probe_error_policy.1 _ _ "a" rfl rfl,
   probe_error_policy.2.1 _ _ "a" rfl,
   probe_error_policy.2.2.1 _ _ ⟨none, none⟩ rfl rfl,
   probe_error_policy.2.2.2 _ _ ⟨none, none⟩ rfl⟩

/-! ## Aggregation lemmas -/

/-- Scalar values on which the JS string-method calls of the aggregation loops
cannot raise: strings, null, and the falsy number 0 (replaced by the `||`
default before any method call). Truthy numbers raise a TypeError. -/
def scalarSafe : Scalar → Bool
  | .str _ => true
  | .null => true
  | .num q => q == 0

/-- A record all of whose field values are safe for aggregation. -/
def recSafe (r : Rec) : Bool :=
  r.fields.all (fun p => scalarSafe p.2)

theorem get_safe {r : Rec} (h : recSafe r = true) (field : String) :
    ∀ x, r.get field = some x → scalarSafe x = true := by
  intro x hx
  unfold Rec.get at hx
  cases hf : r.fields.find? (fun p => p.1 == field) with
  | none => rw [hf] at hx; cases hx
  | some p =>
    rw [hf] at hx
    have hpx : p.2 = x := by
      simpa using hx
    have hmem := List.mem_of_find?_eq_some hf
    have hall := List.all_eq_true.mp h p hmem
    rw [← hpx]
    simpa using hall

theorem jsOr_safe_str {v : Option Scalar} (d : String)
    (hv : ∀ x, v = some x → scalarSafe x = true) :
    ∃ s, jsOr v (.str d) = .str s := by
  match v with
  | none => exact ⟨d, rfl⟩
  | some (.str s) =>
    cases h : Scalar.truthy (.str s) with
    | false => exact ⟨d, by simp [jsOr, h]⟩
    | true => exact ⟨s, by simp [jsOr, h]⟩
  | some .null => exact ⟨d, rfl⟩
  | some (.num q) =>
    have hq : q = 0 := by
      have := hv (.num q) rfl
      simpa [scalarSafe] using this
    subst hq
    exact ⟨d, rfl⟩

theorem trimS_jsOr_ok {v : Option Scalar} (d : String)
    (hv : ∀ x, v = some x → scalarSafe x = true) :
    ∃ s, (jsOr v (.str d)).trimS = .ok s := by
  obtain ⟨s, hs⟩ := jsOr_safe_str d hv
  exact ⟨⟨jsTrim s.data⟩, by rw [hs]; rfl⟩

theorem getStr_jsOr_ok {v : Option Scalar} (d : String)
    (hv : ∀ x, v = some x → scalarSafe x = true) :
    ∃ s, (jsOr v (.str d)).getStr = .ok s := by
  obtain ⟨s, hs⟩ := jsOr_safe_str d hv
  exact ⟨s, by rw [hs]; rfl⟩

/-- Unfolding equation for `buildCounts` on a cons. -/
theorem buildCounts_cons (field : String) (r : Rec) (rest : List Rec)
    (acc : List (String × Nat)) :
    buildCounts field (r :: rest) acc
      = match (jsOr (r.get field) (.str "UNKNOWN")).trimS with
        | .error e => .error e
        | .ok val => buildCounts field rest (assocIncr acc val) := rfl

theorem buildCounts_ok_of_safe (field : String) : ∀ (records : List Rec)
    (acc : List (String × Nat)), (∀ r ∈ records, recSafe r = true) →
    ∃ counts, buildCounts field records acc = .ok counts := by
  intro records
  induction records with
  | nil => exact fun acc _ => ⟨acc, rfl⟩
  | cons r rest ih =>
    intro acc h
    obtain ⟨s, hs⟩ := trimS_jsOr_ok "UNKNOWN" (get_safe (h r (List.mem_cons_self r rest)) field)
    obtain ⟨counts, hc⟩ := ih (assocIncr acc s) (fun x hx => h x (List.mem_cons_of_mem r hx))
    refine ⟨counts, ?_⟩
    rw [buildCounts_cons, hs]
    exact hc

/-- Unfolding equation for `checkbookTotals` on a cons. -/
theorem checkbookTotals_cons (r : Rec) (rest : List Rec) (totals : List (String × ℚ)) :
    checkbookTotals (r :: rest) totals
      = match checkbookStep totals r with
        | .error e => .error e
        | .ok t => checkbookTotals rest t := rfl

theorem checkbookStep_ok_of_safe {r : Rec} (h : recSafe r = true)
    (totals : List (String × ℚ)) : ∃ t, checkbookStep totals r = .ok t := by
  obtain ⟨v, hv⟩ := trimS_jsOr_ok "UNKNOWN" (get_safe h "Vendor Name")
  obtain ⟨raw, hraw⟩ := getStr_jsOr_ok "0" (get_safe h "Monetary Amount")
  refine ⟨assocAdd totals v ((jsParseFloat (stripNonMoney raw).data).getD 0), ?_⟩
  unfold checkbookStep
  rw [hv, hraw]

theorem checkbookTotals_ok_of_safe : ∀ (records : List Rec)
    (totals : List (String × ℚ)), (∀ r ∈ records, recSafe r = true) →
    ∃ t, checkbookTotals records totals = .ok t := by
  intro records
  induction records with
  | nil => exact fun totals _ => ⟨totals, rfl⟩
  | cons r rest ih =>
    intro totals h
    obtain ⟨t1, ht1⟩ := checkbookStep_ok_of_safe (h r (List.mem_cons_self r rest)) totals
    obtain ⟨t2, ht2⟩ := ih t1 (fun x hx => h x (List.mem_cons_of_mem r hx))
    refine ⟨t2, ?_⟩
    rw [checkbookTotals_cons, ht1]
    exact ht2

/-! ## Claim theorems: aggregation safety -/

/-- C5 counterexample: a record whose field value is the (truthy) number 5 makes
`countAndSummarize` raise a TypeError (`(5).trim is not a function`), because
`(r[field] || "UNKNOWN")` passes the truthy number through to `.trim()` —
contradicting the claim that the aggregations never raise on any scalar field
value the Record model allows. -/
theorem count_summarize_number_raises :
    countAndSummarize [⟨[("F", .num 5)]⟩] "F" 10 = .error "TypeError: not a function" := rfl

/-- C5 (amended): over records whose field values are strings, null, or the
falsy number 0, both local aggregations (count summarization and monetary-sum
summarization) return a result without raising, substituting the defaults
("UNKNOWN", "0"); a truthy numeric field value, which the Record model also
allows, instead raises a TypeError (see the counterexample). -/
theorem aggregation_never_raises (records : List Rec) (field : String) (top : Nat)
    (h : ∀ r ∈ records, recSafe r = true) :
    (∃ out, countAndSummarize records field top = .ok out)
    ∧ (∃ totals, checkbookTotals records [] = .ok totals) := by
  constructor
  · obtain ⟨counts, hc⟩ := buildCounts_ok_of_safe field records [] h
    exact ⟨_, by unfold countAndSummarize; rw [hc]⟩
  · exact checkbookTotals_ok_of_safe records [] h

/-- C5 witness: a mixed record set with string, null and zero values
aggregates without raising. -/
theorem aggregation_never_raises_witness :
    (∃ out, countAndSummarize
      [⟨[("F", .str "A"), ("Monetary Amount", .str "$1")]⟩,
       ⟨[("F", .null), ("Monetary Amount", .num 0)]⟩] "F" 10 = .ok out)
    ∧ (∃ totals, checkbookTotals
      [⟨[("F", .str "A"), ("Monetary Amount", .str "$1")]⟩,
       ⟨[("F", .null), ("Monetary Amount", .num 0)]⟩] [] = .ok totals) :=
  aggregation_never_raises _ "F" 10 (by decide)

/-! ## Counting lemmas for the summary ranking -/

/-- The key a record contributes to the counts object:
`(r[field] || "UNKNOWN").trim()`. -/
def recKeyVal (field : String) (r : Rec) : Except String String :=
  (jsOr (r.get field) (.str "UNKNOWN")).trimS

/-- Order of first encounter of each distinct key while scanning. -/
def firstOccurKeys (keys : List String) : List String :=
  keys.foldl (fun a k => if k ∈ a then a else a ++ [k]) []

theorem lookup_isSome_iff_mem_fst {acc : List (String × Nat)} {k : String} :
    (acc.lookup k).isSome ↔ k ∈ acc.map Prod.fst := by
  rw [List.lookup_isSome_iff]
  constructor
  · rintro ⟨p, hp, hk⟩
    exact List.mem_map.mpr ⟨p, hp, (beq_iff_eq.mp hk).symm⟩
  · rintro h
    obtain ⟨p, hp, hk⟩ := List.mem_map.mp h
    exact ⟨p, hp, beq_iff_eq.mpr hk.symm⟩

theorem assocIncr_keys (acc : List (String × Nat)) (k : String) :
    (assocIncr acc k).map Prod.fst
      = if k ∈ acc.map Prod.fst then acc.map Prod.fst else acc.map Prod.fst ++ [k] := by
  unfold assocIncr
  by_cases h : (acc.lookup k).isSome
  · rw [if_pos h, if_pos (lookup_isSome_iff_mem_fst.mp h), List.map_map]
    refine List.map_congr_left fun p _ => ?_
    show (if p.1 == k then (p.1, p.2 + 1) else p).1 = p.1
    split <;> rfl
  · rw [if_neg h, if_neg (fun hm => h (lookup_isSome_iff_mem_fst.mpr hm)), List.map_append]
    rfl

theorem foldl_assocIncr_keys : ∀ (keys : List String) (acc : List (String × Nat)),
    (keys.foldl assocIncr acc).map Prod.fst
      = keys.foldl (fun a k => if k ∈ a then a else a ++ [k]) (acc.map Prod.fst) := by
  intro keys
  induction keys with
  | nil => intro acc; rfl
  | cons k ks ih =>
    intro acc
    rw [List.foldl_cons, List.foldl_cons, ih, assocIncr_keys]

theorem beq_false_of_ne {a b : String} (h : ¬a = b) : (a == b) = false := by
  cases hcc : a == b
  · rfl
  · exact absurd (beq_iff_eq.mp hcc) h

theorem lookup_map_incr (k j : String) : ∀ acc : List (String × Nat),
    (acc.map (fun p => if p.1 == k then (p.1, p.2 + 1) else p)).lookup j
      = (acc.lookup j).map (fun v => if j = k then v + 1 else v) := by
  intro acc
  induction acc with
  | nil => rfl
  | cons p rest ih =>
    obtain ⟨p1, p2⟩ := p
    rw [List.map_cons]
    by_cases hpk : (p1 == k) = true
    · rw [if_pos hpk, List.lookup_cons, List.lookup_cons]
      by_cases hjp : (j == p1) = true
      · have hjk : j = k := (beq_iff_eq.mp hjp).trans (beq_iff_eq.mp hpk)
        simp only [hjp]
        simp [hjk]
      · rw [Bool.not_eq_true] at hjp
        simp only [hjp]
        exact ih
    · rw [if_neg hpk, List.lookup_cons, List.lookup_cons]
      by_cases hjp : (j == p1) = true
      · have hjk : ¬j = k := fun he =>
          hpk (beq_iff_eq.mpr ((beq_iff_eq.mp hjp).symm.trans he))
        simp only [hjp]
        simp [hjk]
      · rw [Bool.not_eq_true] at hjp
        simp only [hjp]
        exact ih

theorem assocIncr_lookup (acc : List (String × Nat)) (k j : String) :
    ((assocIncr acc k).lookup j).getD 0
      = (acc.lookup j).getD 0 + (if j = k then 1 else 0) := by
  unfold assocIncr
  by_cases h : (acc.lookup k).isSome
  · rw [if_pos h, lookup_map_incr]
    by_cases hjk : j = k
    · subst hjk
      obtain ⟨v, hv⟩ := Option.isSome_iff_exists.mp h
      rw [hv]
      simp
    · rw [if_neg hjk]
      cases acc.lookup j <;> simp [hjk]
  · rw [if_neg h, List.lookup_append]
    by_cases hjk : j = k
    · subst hjk
      rw [Option.not_isSome_iff_eq_none.mp h]
      simp
    · have hnone : ([(k, 1)] : List (String × Nat)).lookup j = none := by
        rw [List.lookup_cons, beq_false_of_ne hjk]
        rfl
      rw [hnone]
      cases acc.lookup j <;> simp [hjk]

theorem foldl_assocIncr_lookup : ∀ (keys : List String) (acc : List (String × Nat))
    (j : String), ((keys.foldl assocIncr acc).lookup j).getD 0
      = (acc.lookup j).getD 0 + keys.count j := by
  intro keys
  induction keys with
  | nil => intro acc j; simp
  | cons k ks ih =>
    intro acc j
    rw [List.foldl_cons, ih, assocIncr_lookup, List.count_cons]
    by_cases hjk : j = k
    · subst hjk
      simp only [beq_self_eq_true, if_pos rfl, if_true]
      omega
    · simp only [beq_false_of_ne (fun he => hjk he.symm), if_neg hjk,
        Bool.false_eq_true, if_false]
      omega

theorem firstOccur_aux_nodup : ∀ (keys : List String) (acc : List String),
    acc.Nodup → (keys.foldl (fun a k => if k ∈ a then a else a ++ [k]) acc).Nodup := by
  intro keys
  induction keys with
  | nil => exact fun acc h => h
  | cons k ks ih =>
    intro acc h
    rw [List.foldl_cons]
    by_cases hk : k ∈ acc
    · rw [if_pos hk]
      exact ih acc h
    · rw [if_neg hk]
      refine ih _ (List.nodup_append.mpr ⟨h, List.nodup_singleton k, ?_⟩)
      intro a ha hak
      rw [List.mem_singleton.mp hak] at ha
      exact hk ha

theorem firstOccurKeys_nodup (keys : List String) : (firstOccurKeys keys).Nodup :=
  firstOccur_aux_nodup keys [] List.nodup_nil

theorem mem_lookup_eq : ∀ {l : List (String × Nat)},
    (l.map Prod.fst).Nodup → ∀ {p : String × Nat}, p ∈ l → l.lookup p.1 = some p.2 := by
  intro l
  induction l with
  | nil => intro _ p hp; exact absurd hp (List.not_mem_nil p)
  | cons q rest ih =>
    intro hnd p hp
    obtain ⟨q1, q2⟩ := q
    rw [List.map_cons] at hnd
    have hnd' := List.nodup_cons.mp hnd
    rcases List.mem_cons.mp hp with rfl | hrest
    · simp [List.lookup_cons]
    · have hne : ¬p.1 = q1 := by
        intro hbe
        refine hnd'.1 ?_
        rw [← hbe]
        exact List.mem_map.mpr ⟨p, hrest, rfl⟩
      rw [List.lookup_cons, beq_false_of_ne hne]
      exact ih hnd'.2 hrest

theorem except_bind_ok {γ δ : Type} {x : Except String γ} {f : γ → Except String δ}
    {y : δ} (h : (x >>= f) = .ok y) : ∃ a, x = .ok a ∧ f a = .ok y := by
  cases x with
  | error e => exact Except.noConfusion h
  | ok a => exact ⟨a, rfl, h⟩

theorem buildCounts_eq_foldl (field : String) : ∀ (records : List Rec)
    (acc : List (String × Nat)) (keys : List String),
    records.mapM (recKeyVal field) = .ok keys →
    buildCounts field records acc = .ok (keys.foldl assocIncr acc) := by
  intro records
  induction records with
  | nil =>
    intro acc keys h
    rw [List.mapM_nil] at h
    have hkeys : keys = [] := by
      injection h with h'
      exact h'.symm
    subst hkeys
    rfl
  | cons r rest ih =>
    intro acc keys h
    rw [List.mapM_cons] at h
    obtain ⟨k, hk, h2⟩ := except_bind_ok h
    obtain ⟨ks, hks, h3⟩ := except_bind_ok h2
    have hkeys : keys = k :: ks := by
      injection h3 with h'
      exact h'.symm
    subst hkeys
    rw [buildCounts_cons,
      show (jsOr (r.get field) (Scalar.str "UNKNOWN")).trimS = recKeyVal field r from rfl,
      hk, List.foldl_cons]
    exact ih (assocIncr acc k) ks hks

theorem jsObjectEntries_perm {β : Type} (assoc : List (String × β)) :
    List.Perm (jsObjectEntries assoc) assoc := by
  unfold jsObjectEntries
  exact (List.Perm.append_right _ (List.perm_insertionSort _ _)).trans
    (List.filter_append_perm _ assoc)

theorem jsObjectEntries_id {β : Type} {assoc : List (String × β)}
    (h : ∀ p ∈ assoc, isArrayIndexKey p.1 = false) : jsObjectEntries assoc = assoc := by
  unfold jsObjectEntries
  have h1 : assoc.filter (fun p => isArrayIndexKey p.1) = [] :=
    List.filter_eq_nil_iff.mpr (fun p hp => by simp [h p hp])
  have h2 : assoc.filter (fun p => !isArrayIndexKey p.1) = assoc :=
    List.filter_eq_self.mpr (fun p hp => by simp [h p hp])
  rw [h1, h2]
  rfl

/-! ## Claim theorems: count summarization -/

/-- C6 counterexample: for grouping values `"20"` and `"3"` (one record each,
`topN = 2`), the counts object enumerates the integer-like keys in ascending
numeric order — `"3"` before `"20"` — before the stable sort, so the tie is NOT
broken by first-encounter order ("20" was scanned first yet ranks second). -/
theorem count_summary_tie_numeric :
    countAndSummarize [Rec.mk [("F", Scalar.str "20")], Rec.mk [("F", Scalar.str "3")]] "F" 2
      = .ok "1. 3: 1\n2. 20: 1"
    ∧ countAndSummarize [Rec.mk [("F", Scalar.str "20")], Rec.mk [("F", Scalar.str "3")]] "F" 2
      ≠ .ok "1. 20: 1\n2. 3: 1" := by
  refine ⟨rfl, fun h => ?_⟩
  rw [show countAndSummarize
      [Rec.mk [("F", Scalar.str "20")], Rec.mk [("F", Scalar.str "3")]] "F" 2
    = .ok "1. 3: 1\n2. 20: 1" from rfl] at h
  injection h with h'
  exact absurd h' (by decide)

/-- C6 (amended): count summarization counts per trimmed key ("UNKNOWN" for
missing), sorts the counts-object entries descending by count with a stable
sort, assigns 1-based ranks in rendering, and returns at most
`min topN (number of distinct keys)` entries. Ties are broken by the
enumeration order of the counts object: this is first-encounter order for keys
that are not integer-like, but integer-like keys (canonical array indices) are
enumerated first, in ascending numeric order, before the others (see the
counterexample). Precisely: the counts accumulator lists keys in first-encounter
order with the occurrence counts; the summary renders the stable descending
sort of its JS enumeration, truncated to `topN`; and when no key is
integer-like, tied entries keep their first-encounter order in the sorted
sequence. -/
theorem count_summary_ranking
    (records : List Rec) (field : String) (top : Nat) (keys : List String)
    (hkeys : records.mapM (recKeyVal field) = .ok keys) :
    ∃ counts, buildCounts field records [] = .ok counts
      ∧ counts.map Prod.fst = firstOccurKeys keys
      ∧ (∀ p ∈ counts, p.2 = keys.count p.1)
      ∧ countAndSummarize records field top
          = .ok ("\n".intercalate
              (((List.insertionSort countGE (jsObjectEntries counts)).take top).enum.map
                (fun p => s!"{p.1 + 1}. {p.2.1}: {p.2.2}")))
      ∧ List.Sorted countGE (List.insertionSort countGE (jsObjectEntries counts))
      ∧ ((List.insertionSort countGE (jsObjectEntries counts)).take top).length
          = min top (firstOccurKeys keys).length
      ∧ ((∀ p ∈ counts, isArrayIndexKey p.1 = false) →
          ∀ a b : String × Nat, List.Sublist [a, b] counts → a.2 = b.2 →
            List.Sublist [a, b] (List.insertionSort countGE (jsObjectEntries counts))) := by
  have hbc := buildCounts_eq_foldl field records [] keys hkeys
  refine ⟨keys.foldl assocIncr [], hbc, foldl_assocIncr_keys keys [], ?_, ?_, ?_, ?_, ?_⟩
  · intro p hp
    have hnd : ((keys.foldl assocIncr []).map Prod.fst).Nodup := by
      rw [foldl_assocIncr_keys]
      exact firstOccurKeys_nodup keys
    have hl := mem_lookup_eq hnd hp
    have hfold := foldl_assocIncr_lookup keys [] p.1
    rw [hl] at hfold
    simpa using hfold
  · unfold countAndSummarize
    rw [hbc]
  · exact List.sorted_insertionSort countGE _
  · rw [List.length_take, (List.perm_insertionSort countGE _).length_eq,
      (jsObjectEntries_perm _).length_eq]
    have hlen := congrArg List.length (foldl_assocIncr_keys keys [])
    rw [List.length_map] at hlen
    rw [hlen]
    rfl
  · intro hnum a b hsub htie
    rw [jsObjectEntries_id hnum]
    exact List.pair_sublist_insertionSort (le_of_eq htie.symm) hsub

/-- C6 witness: the cited instance — values `["A","A","B"]` with `topN = 2` —
yields A with count 2 at rank 1 and B with count 1 at rank 2. -/
theorem count_summary_ranking_witness :
    countAndSummarize [Rec.mk [("F", Scalar.str "A")], Rec.mk [("F", Scalar.str "A")],
      Rec.mk [("F", Scalar.str "B")]] "F" 2 = .ok "1. A: 2\n2. B: 1" := by
  obtain ⟨counts, hbc, _, _, hcs, _⟩ := count_summary_ranking
    [Rec.mk [("F", Scalar.str "A")], Rec.mk [("F", Scalar.str "A")],
      Rec.mk [("F", Scalar.str "B")]] "F" 2 ["A", "A", "B"] rfl
  have hc : counts = [("A", 2), ("B", 1)] := by
    have h0 : buildCounts "F" [Rec.mk [("F", Scalar.str "A")], Rec.mk [("F", Scalar.str "A")],
        Rec.mk [("F", Scalar.str "B")]] [] = .ok [("A", 2), ("B", 1)] := rfl
    rw [h0] at hbc
    injection hbc with h'
    exact h'.symm
  subst hc
  rw [hcs]
  rfl

/-! ## Checkbook summation lemmas -/

theorem assocAdd_nil (v : String) (x : ℚ) : assocAdd [] v x = [(v, x)] := rfl

theorem assocAdd_single (v : String) (q x : ℚ) : assocAdd [(v, q)] v x = [(v, q + x)] := by
  unfold assocAdd
  rw [if_pos (by rw [List.lookup_cons_self]; rfl)]
  simp

/-- One checkbook loop step on a record with a string vendor (already trimmed,
nonempty) and a string amount: the vendor groups and the amount contributes the
parse of its stripped form, 0 when parsing fails. -/
theorem checkbookStep_mk (v : String) (hv : jsTrim v.data = v.data) (hv0 : ¬v = "")
    (totals : List (String × ℚ)) (s : String) :
    checkbookStep totals
        (Rec.mk [("Vendor Name", Scalar.str v), ("Monetary Amount", Scalar.str s)])
      = .ok (assocAdd totals v ((jsParseFloat (stripNonMoney s).data).getD 0)) := by
  have hget1 : (Rec.mk [("Vendor Name", Scalar.str v),
      ("Monetary Amount", Scalar.str s)]).get "Vendor Name" = some (Scalar.str v) := rfl
  have hget2 : (Rec.mk [("Vendor Name", Scalar.str v),
      ("Monetary Amount", Scalar.str s)]).get "Monetary Amount" = some (Scalar.str s) := rfl
  have hjsor1 : jsOr (some (Scalar.str v)) (Scalar.str "UNKNOWN") = Scalar.str v := by
    show (if (!(v == "")) = true then Scalar.str v else Scalar.str "UNKNOWN") = Scalar.str v
    rw [beq_false_of_ne hv0]
    rfl
  have htrim : (Scalar.str v).trimS = .ok v := by
    show Except.ok (⟨jsTrim v.data⟩ : String) = Except.ok v
    rw [hv]
  unfold checkbookStep
  rw [hget1, hjsor1, htrim, hget2]
  by_cases hs : s = ""
  · subst hs
    have hval : (jsParseFloat (stripNonMoney "0").data).getD 0
        = (jsParseFloat (stripNonMoney "").data).getD 0 := by
      have l1 : jsParseFloat (stripNonMoney "0").data
          = some ((((0 : ℕ) : ℚ)) + (((0 : ℕ) : ℚ)) / 10 ^ (0 : ℕ)) := rfl
      have l2 : jsParseFloat (stripNonMoney "").data = none := rfl
      rw [l1, l2]
      show (((0 : ℕ) : ℚ)) + (((0 : ℕ) : ℚ)) / 10 ^ (0 : ℕ) = 0
      norm_num
    show Except.ok (assocAdd totals v ((jsParseFloat (stripNonMoney "0").data).getD 0))
      = Except.ok (assocAdd totals v ((jsParseFloat (stripNonMoney "").data).getD 0))
    rw [hval]
  · have hjsor2 : jsOr (some (Scalar.str s)) (Scalar.str "0") = Scalar.str s := by
      show (if (!(s == "")) = true then Scalar.str s else Scalar.str "0") = Scalar.str s
      rw [beq_false_of_ne hs]
      rfl
    rw [hjsor2]
    rfl

theorem checkbookTotals_vendor (v : String) (hv : jsTrim v.data = v.data) (hv0 : ¬v = "") :
    ∀ (amts : List String) (q : ℚ),
    checkbookTotals (amts.map (fun s =>
        Rec.mk [("Vendor Name", Scalar.str v), ("Monetary Amount", Scalar.str s)])) [(v, q)]
      = .ok [(v, q + (amts.map (fun s => (jsParseFloat (stripNonMoney s).data).getD 0)).sum)] := by
  intro amts
  induction amts with
  | nil => intro q; simp [checkbookTotals]
  | cons s rest ih =>
    intro q
    rw [List.map_cons, checkbookTotals_cons, checkbookStep_mk v hv hv0 _ s, assocAdd_single]
    show checkbookTotals (rest.map (fun s =>
        Rec.mk [("Vendor Name", Scalar.str v), ("Monetary Amount", Scalar.str s)]))
        [(v, q + (jsParseFloat (stripNonMoney s).data).getD 0)] = _
    rw [ih (q + (jsParseFloat (stripNonMoney s).data).getD 0), List.map_cons, List.sum_cons,
      add_assoc]

/-! ## Claim theorems: monetary sums -/

/-- C8: in the checkbook monetary-sum summarization, each string amount has all
characters other than digits, `-`, and the decimal point stripped
(`stripNonMoney`, the embedding of `.replace(/[^0-9.-]+/g,"")`) before parsing,
and a value that still fails to parse (`jsParseFloat = none`, i.e. `NaN`)
contributes 0 to its group's sum rather than aborting: over any nonempty run of
single-vendor records the group total is exactly the sum of the
stripped-then-parsed amounts with failures as 0. -/
theorem monetary_sum_strip_parse (v : String) (hv : jsTrim v.data = v.data)
    (hv0 : ¬v = "") (amts : List String) (hne : amts ≠ []) :
    checkbookTotals (amts.map (fun s =>
        Rec.mk [("Vendor Name", Scalar.str v), ("Monetary Amount", Scalar.str s)])) []
      = .ok [(v, (amts.map (fun s => (jsParseFloat (stripNonMoney s).data).getD 0)).sum)] := by
  match amts, hne with
  | a :: rest, _ =>
    rw [List.map_cons, checkbookTotals_cons, checkbookStep_mk v hv hv0 _ a, assocAdd_nil]
    show checkbookTotals (rest.map (fun s =>
        Rec.mk [("Vendor Name", Scalar.str v), ("Monetary Amount", Scalar.str s)]))
        [(v, (jsParseFloat (stripNonMoney a).data).getD 0)] = _
    rw [checkbookTotals_vendor v hv hv0 rest _, List.map_cons, List.sum_cons]

/-- C8 witness: the cited instance — monetary values `["$10.00","abc","$5"]`
sum to exactly 15 (the unparsable `"abc"` contributes 0). -/
theorem monetary_sum_strip_parse_witness :
    checkbookTotals
      [Rec.mk [("Vendor Name", Scalar.str "ACME"), ("Monetary Amount", Scalar.str "$10.00")],
       Rec.mk [("Vendor Name", Scalar.str "ACME"), ("Monetary Amount", Scalar.str "abc")],
       Rec.mk [("Vendor Name", Scalar.str "ACME"), ("Monetary Amount", Scalar.str "$5")]] []
      = .ok [("ACME", (15 : ℚ))] := by
  have h := monetary_sum_strip_parse "ACME" rfl (by decide) ["$10.00", "abc", "$5"]
    (by decide)
  refine h.trans ?_
  have l1 : jsParseFloat (stripNonMoney "$10.00").data
      = some ((((10 : ℕ) : ℚ)) + (((0 : ℕ) : ℚ)) / 10 ^ (2 : ℕ)) := rfl
  have l2 : jsParseFloat (stripNonMoney "abc").data = none := rfl
  have l3 : jsParseFloat (stripNonMoney "$5").data
      = some ((((5 : ℕ) : ℚ)) + (((0 : ℕ) : ℚ)) / 10 ^ (0 : ℕ)) := rfl
  simp only [List.map_cons, List.map_nil, l1, l2, l3, List.sum_cons, List.sum_nil,
    Option.getD_some, Option.getD_none]
  norm_num

/-! ## Claim theorems: reconciliation filters -/

theorem isSubList_nil (l : List Char) : isSubList [] l = true := by
  cases l <;> rfl

/-- C9: under the bidirectional substring policy of
`get_building_permits_fuzzy_parallel`, a record whose `address` field is
absent, null, or the empty string passes the filter for every query address:
its normalized address is the empty string, and `searchNorm.includes("")` is
always true. -/
theorem empty_address_always_matches (q : String) (r : Rec)
    (h : r.get "address" = none ∨ r.get "address" = some Scalar.null
      ∨ r.get "address" = some (Scalar.str "")) :
    permitMatch (normalizeAddress q) r = .ok true := by
  have hj : jsOr (r.get "address") (Scalar.str "") = Scalar.str "" := by
    rcases h with h | h | h <;> rw [h] <;> rfl
  unfold permitMatch
  rw [hj]
  show Except.ok ((normalizeAddress "" == normalizeAddress q)
    || jsIncludes (normalizeAddress "") (normalizeAddress q)
    || jsIncludes (normalizeAddress q) (normalizeAddress "")) = .ok true
  have h3 : jsIncludes (normalizeAddress q) (normalizeAddress "") = true := by
    show isSubList (normalizeAddress "").data (normalizeAddress q).data = true
    rw [show normalizeAddress "" = "" from rfl]
    exact isSubList_nil _
  rw [h3, Bool.or_true]

/-- C9 witness: a null-address record passes for a concrete query. -/
theorem empty_address_always_matches_witness :
    permitMatch (normalizeAddress "65 Commonwealth Ave")
      (Rec.mk [("address", Scalar.null)]) = .ok true :=
  empty_address_always_matches "65 Commonwealth Ave" _ (Or.inr (Or.inl rfl))

/-- Unfolding equation for `filter311` on a cons. -/
theorem filter311_cons (normAddr : String) (r : Rec) (rest : List Rec) :
    filter311 normAddr (r :: rest)
      = match (locationValue r).getStr with
        | .error e => .error e
        | .ok s =>
          match filter311 normAddr rest with
          | .error e => .error e
          | .ok tail => .ok (if normalizeAddress s == normAddr then r :: tail else tail) := rfl

theorem locString_isSome_getStr {r : Rec} {s : String} (hs : locString r = some s) :
    (locationValue r).getStr = .ok s := by
  unfold locString at hs
  cases hlv : locationValue r with
  | str s' =>
    rw [hlv] at hs
    injection hs with h'
    rw [← h']
    rfl
  | num q => rw [hlv] at hs; cases hs
  | null => rw [hlv] at hs; cases hs

theorem filter311_eq (normAddr : String) : ∀ records : List Rec,
    (∀ r ∈ records, (locString r).isSome) →
    filter311 normAddr records
      = .ok (records.filter
          (fun r => normalizeAddress ((locString r).getD "") == normAddr)) := by
  intro records
  induction records with
  | nil => intro _; rfl
  | cons r rest ih =>
    intro h
    obtain ⟨s, hs⟩ := Option.isSome_iff_exists.mp (h r (List.mem_cons_self r rest))
    rw [filter311_cons, locString_isSome_getStr hs,
      ih (fun x hx => h x (List.mem_cons_of_mem r hx)), List.filter_cons, hs]
    rfl

/-- C7: under the exact-after-normalize policy of `get_311_requests` with an
address given, a record passes the filter iff the normalization of its resolved
location value (`location_street_name`, falling back to `location`, then to the
empty string) equals the normalization of the query address; records with both
location fields absent resolve to the empty string and never cause a failure;
and the handler applies exactly this filter to the response's records. -/
theorem exact_match_reconcile (addr : String) (records : List Rec)
    (h : ∀ r ∈ records, (locString r).isSome) :
    (∃ recs, filter311 (normalizeAddress addr) records = .ok recs
      ∧ ∀ r, r ∈ recs ↔ r ∈ records
          ∧ normalizeAddress ((locString r).getD "") = normalizeAddress addr)
    ∧ (∀ r : Rec, r.get "location_street_name" = none → r.get "location" = none →
        locString r = some "")
    ∧ (∀ (cs ty : Option String) (limit : Nat)
        (remote : Ds311Request → Except String DsResponse) (resp : DsResponse),
        ¬addr = "" → remote (build311Request (some addr) cs ty limit) = .ok resp →
        resp.ok = true → resp.success = true → resp.result.records = records →
        get311Records (some addr) cs ty limit remote
          = filter311 (normalizeAddress addr) records) := by
  refine ⟨⟨_, filter311_eq (normalizeAddress addr) records h, ?_⟩, ?_, ?_⟩
  · intro r
    rw [List.mem_filter]
    exact and_congr_right fun _ => beq_iff_eq
  · intro r h1 h2
    show (match jsOr (r.get "location_street_name")
        (jsOr (r.get "location") (Scalar.str "")) with
      | Scalar.str s => some s
      | _ => none) = some ""
    rw [h1, h2]
    rfl
  · intro cs ty limit remote resp haddr hrem hok hsucc hrecs
    unfold get311Records
    rw [hrem]
    show (if (!resp.ok) = true then Except.error "API Error"
      else if (!resp.success) = true then Except.error "API call unsuccessful."
      else if jsStrTruthy (some addr) = true then
        filter311 (normalizeAddress ((some addr).getD "")) resp.result.records
      else Except.ok resp.result.records)
      = filter311 (normalizeAddress addr) records
    have htr : jsStrTruthy (some addr) = true := by
      show (!(addr == "")) = true
      rw [beq_false_of_ne haddr]
      rfl
    rw [hok, hsucc, hrecs, htr]
    rfl

/-- C7 witness: a concrete filter run — one matching and one non-matching
record, plus both fallback clauses discharged concretely. -/
theorem exact_match_reconcile_witness :
    ∃ recs, filter311 (normalizeAddress "1 Main St")
      [Rec.mk [("location", Scalar.str "1 MAIN STREET")],
       Rec.mk [("location_street_name", Scalar.str "2 Elm St")]] = .ok recs
      ∧ ∀ r, r ∈ recs ↔ r ∈ [Rec.mk [("location", Scalar.str "1 MAIN STREET")],
          Rec.mk [("location_street_name", Scalar.str "2 Elm St")]]
        ∧ normalizeAddress ((locString r).getD "") = normalizeAddress "1 Main St" :=
  (exact_match_reconcile "1 Main St"
    [Rec.mk [("location", Scalar.str "1 MAIN STREET")],
     Rec.mk [("location_street_name", Scalar.str "2 Elm St")]] (by decide)).1

/-! ## Claim theorems: the single-request 311 handler -/

theorem filter311_length {normAddr : String} : ∀ {records out : List Rec},
    filter311 normAddr records = .ok out → out.length ≤ records.length := by
  intro records
  induction records with
  | nil =>
    intro out h
    injection h with h'
    rw [← h']
  | cons r rest ih =>
    intro out h
    rw [filter311_cons] at h
    cases hval : (locationValue r).getStr with
    | error e => rw [hval] at h; exact Except.noConfusion h
    | ok s =>
      rw [hval] at h
      cases htail : filter311 normAddr rest with
      | error e => rw [htail] at h; exact Except.noConfusion h
      | ok tail =>
        rw [htail] at h
        have h' : (if normalizeAddress s == normAddr then r :: tail else tail) = out := by
          injection h
        have hlen := ih htail
        rw [← h']
        split
        · simpa using Nat.succ_le_succ hlen
        · exact le_trans hlen (Nat.le_succ _)

/-- C10: `get_311_requests` issues exactly one datastore request per
invocation — its outcome depends on the remote only through the response to
`build311Request` — whose page size is the validated `limit` parameter
(schema: 1..100, default 10, out-of-range rejected); assuming the upstream
honors the requested limit (returns at most `limit` records for the one
request), every successful outcome holds at most `limit` records, since the
local address filter only removes records. -/
theorem single_request_bounded
    (address cs ty : Option String) (input : Option Nat) (limit : Nat)
    (hlim : limitSchema input = some limit) :
    (build311Request address cs ty limit).limit = limit
    ∧ (1 ≤ limit ∧ limit ≤ 100)
    ∧ (input = none → limit = 10)
    ∧ (∀ remote remote' : Ds311Request → Except String DsResponse,
        remote (build311Request address cs ty limit)
          = remote' (build311Request address cs ty limit) →
        get311Records address cs ty limit remote
          = get311Records address cs ty limit remote')
    ∧ (∀ (remote : Ds311Request → Except String DsResponse) (resp : DsResponse)
        (recs : List Rec),
        remote (build311Request address cs ty limit) = .ok resp →
        resp.result.records.length ≤ limit →
        get311Records address cs ty limit remote = .ok recs →
        recs.length ≤ limit) := by
  have hbounds : (1 ≤ limit ∧ limit ≤ 100) ∧ (input = none → limit = 10) := by
    cases input with
    | none =>
      injection hlim with h'
      exact ⟨by omega, fun _ => h'.symm⟩
    | some n =>
      replace hlim : (if 1 ≤ n ∧ n ≤ 100 then some n else none) = some limit := hlim
      by_cases hcond : 1 ≤ n ∧ n ≤ 100
      · rw [if_pos hcond] at hlim
        injection hlim with h'
        subst h'
        exact ⟨⟨hcond.1, hcond.2⟩, fun hc => Option.noConfusion hc⟩
      · rw [if_neg hcond] at hlim
        exact absurd hlim (fun hx => Option.noConfusion hx)
  refine ⟨rfl, hbounds.1, hbounds.2, ?_, ?_⟩
  · intro remote remote' hsame
    unfold get311Records
    rw [hsame]
  · intro remote resp recs hrem hlen hout
    unfold get311Records at hout
    rw [hrem] at hout
    replace hout : (if (!resp.ok) = true then Except.error "API Error"
      else if (!resp.success) = true then Except.error "API call unsuccessful."
      else if jsStrTruthy address = true then
        filter311 (normalizeAddress (address.getD "")) resp.result.records
      else Except.ok resp.result.records) = Except.ok recs := hout
    cases hro : resp.ok with
    | false => rw [hro] at hout; exact Except.noConfusion hout
    | true =>
      rw [hro] at hout
      cases hrs : resp.success with
      | false => rw [hrs] at hout; exact Except.noConfusion hout
      | true =>
        rw [hrs] at hout
        cases hta : jsStrTruthy address with
        | true =>
          rw [hta] at hout
          have hout' : filter311 (normalizeAddress (address.getD ""))
              resp.result.records = .ok recs := hout
          exact le_trans (filter311_length hout') hlen
        | false =>
          rw [hta] at hout
          have hout' : resp.result.records = recs := by
            injection hout
          rw [← hout']
          exact hlen

/-- C10 witness: limit 50 accepted by the schema; a remote honoring the limit
yields at most 50 records. -/
theorem single_request_bounded_witness :
    (build311Request none none none 50).limit = 50 ∧ ([] : List Rec).length ≤ 50 := by
  have h := single_request_bounded none none none (some 50) 50 rfl
  refine ⟨h.1, ?_⟩
  exact h.2.2.2.2 (fun _ => .ok ⟨true, true, ⟨[], some 0⟩⟩)
    ⟨true, true, ⟨[], some 0⟩⟩ [] rfl (by decide) rfl

end BostonData
